import Mathlib

/-! Shallow embedding of the repository layer of a renovation-materials
estimation backend: the generic CRUD repository, shopping-list cost
aggregation, retailer price comparison, and subscription lifecycle queries.
Database tables are modelled as Lean lists, ORM rows as structures or
attribute maps, fixed-point decimals as rationals, and timestamps as
integers. -/

namespace Estimate

/-- An attribute value stored on a row object. -/
inductive Val where
  | str : String → Val
  | num : ℚ → Val
  | boolean : Bool → Val
  | null : Val
deriving DecidableEq, Repr

/-- A row object as the generic repository sees it: a finite association of
attribute names to values, modelling a Python object's attributes. -/
abbrev Obj := List (String × Val)

/-- Models Python `hasattr` on a row object. -/
def hasattr (o : Obj) (f : String) : Bool :=
  o.any fun p => p.1 == f

/-- Models Python `getattr` on a row object. -/
def getattr : Obj → String → Option Val
  | [], _ => none
  | p :: rest, f => if p.1 == f then some p.2 else getattr rest f

/-- Models Python `setattr` on a row object whose attribute set is fixed by
its model class: the binding for `f`, when present, is replaced by `v`. -/
def setattr (o : Obj) (f : String) (v : Val) : Obj :=
  o.map fun p => if p.1 == f then (f, v) else p

namespace BaseRepository

/-- One filter condition of `get_multi`/`count`: the row matches the filter
map when every entry whose key is a column of the model class
(`hasattr(self.model, field)`) equals the row's value there; entries with
unknown keys impose no condition. `fields` is the model class's column-name
list. -/
def rowMatches (fields : List String) (filters : List (String × Val)) (row : Obj) : Bool :=
  filters.all fun fv =>
    if fields.contains fv.1 then getattr row fv.1 == some fv.2 else true

/-- `BaseRepository.get_multi`: select rows satisfying the recognized
filters, then apply `OFFSET skip LIMIT limit`. -/
def get_multi (fields : List String) (db : List Obj) (skip limit : Nat)
    (filters : List (String × Val)) : List Obj :=
  ((db.filter (rowMatches fields filters)).drop skip).take limit

/-- `BaseRepository.count`: `SELECT count(*)` under the same filter
semantics as `get_multi`. -/
def count (fields : List String) (db : List Obj)
    (filters : List (String × Val)) : Nat :=
  (db.filter (rowMatches fields filters)).length

/-- A table of identified rows: primary key to row object. -/
abbrev DB := List (Nat × Obj)

/-- `BaseRepository.get`: primary-key point lookup; `None` when the id does
not identify a row. -/
def get : DB → Nat → Option Obj
  | [], _ => none
  | r :: rest, id => if r.1 == id then some r.2 else get rest id

/-- The field loop of `BaseRepository.update`: for each entry of `obj_in`,
`setattr(db_obj, field, value)` guarded by `hasattr(db_obj, field)`. -/
def applyUpdate (o : Obj) (obj_in : List (String × Val)) : Obj :=
  obj_in.foldl (fun acc fv => if hasattr acc fv.1 then setattr acc fv.1 fv.2 else acc) o

/-- `BaseRepository.update`: fetch by id, return `None` leaving the store
unchanged when absent; otherwise apply the recognized fields of `obj_in`
and commit. -/
def update (db : DB) (id : Nat) (obj_in : List (String × Val)) :
    DB × Option Obj :=
  match get db id with
  | none => (db, none)
  | some o =>
    let o2 := applyUpdate o obj_in
    (db.map fun r => if r.1 == id then (r.1, o2) else r, some o2)

/-- `BaseRepository.delete`: fetch by id, return `false` when absent;
otherwise remove the row and return `true`. -/
def delete (db : DB) (id : Nat) : DB × Bool :=
  match get db id with
  | none => (db, false)
  | some _ => (db.filter fun r => !(r.1 == id), true)

end BaseRepository

/-- A `shopping_lists` row. Fixed-point decimals are modelled as rationals. -/
structure ShoppingList where
  id : Nat
  project_id : Nat
  total_estimated_cost : ℚ
deriving DecidableEq, Repr

/-- A `shopping_list_items` row. Nullable columns are `Option`s;
`actual_purchase_quantity` is NOT NULL in the model. -/
structure ShoppingListItem where
  id : Nat
  shopping_list_id : Nat
  material_name : String
  material_category : String
  calculated_quantity : ℚ
  waste_factor_percent : ℚ
  actual_purchase_quantity : ℚ
  unit_of_measure : String
  estimated_unit_price : Option ℚ
  estimated_total_cost : Option ℚ
  actual_unit_price : Option ℚ
  actual_total_cost : Option ℚ
  purchase_status : String
  notes : Option String
deriving DecidableEq, Repr

/-- The store the shopping-list repositories operate on: the
`shopping_lists` table and the `shopping_list_items` table. -/
structure ShoppingListState where
  lists : List ShoppingList
  items : List ShoppingListItem
deriving DecidableEq, Repr

/-- Python truthiness-based `x or d` on an optional Decimal: yields `d`
when `x` is `None` or holds zero (both falsy), else the value held by `x`. -/
def pyOrDecimal (x : Option ℚ) (d : ℚ) : ℚ :=
  match x with
  | none => d
  | some v => if v = 0 then d else v

/-- The items belonging to a shopping list, as loaded by
`selectinload(ShoppingList.items)`. -/
def itemsOf (st : ShoppingListState) (shopping_list_id : Nat) : List ShoppingListItem :=
  st.items.filter fun i => i.shopping_list_id == shopping_list_id

/-- `ShoppingListRepository.get_with_items`: the list row with the given id,
or `None`. -/
def get_with_items (st : ShoppingListState) (shopping_list_id : Nat) :
    Option ShoppingList :=
  st.lists.find? fun l => l.id == shopping_list_id

/-- `ShoppingListRepository.recalculate_total`: load the list with its
items (`None` when absent), sum `item.estimated_total_cost or
Decimal("0.00")` over the items, store the sum as `total_estimated_cost`,
commit and return the refreshed list. -/
def recalculate_total (st : ShoppingListState) (shopping_list_id : Nat) :
    ShoppingListState × Option ShoppingList :=
  match get_with_items st shopping_list_id with
  | none => (st, none)
  | some l =>
    let total := ((itemsOf st shopping_list_id).map fun i =>
      pyOrDecimal i.estimated_total_cost 0).sum
    ({ st with
        lists := st.lists.map fun l2 =>
          if l2.id == shopping_list_id then
            { l2 with total_estimated_cost := total }
          else l2 },
     some { l with total_estimated_cost := total })

/-- Point lookup of a `shopping_list_items` row by id
(`ShoppingListItemRepository.get`). -/
def itemGet (items : List ShoppingListItem) (item_id : Nat) :
    Option ShoppingListItem :=
  items.find? fun i => i.id == item_id

/-- `ShoppingListItemRepository.mark_purchased`: fetch the item (`None` when
absent), set `purchase_status` to purchased, record `actual_unit_price`, and
set `actual_total_cost` to `actual_unit_price * actual_quantity` when a
quantity is supplied, else to `actual_unit_price *
item.actual_purchase_quantity`; commit and return the refreshed item. -/
def mark_purchased (items : List ShoppingListItem) (item_id : Nat)
    (actual_unit_price : ℚ) (actual_quantity : Option ℚ) :
    List ShoppingListItem × Option ShoppingListItem :=
  match itemGet items item_id with
  | none => (items, none)
  | some item =>
    let cost :=
      match actual_quantity with
      | some q => actual_unit_price * q
      | none => actual_unit_price * item.actual_purchase_quantity
    let item2 :=
      { item with
          purchase_status := "purchased"
          actual_unit_price := some actual_unit_price
          actual_total_cost := some cost }
    (items.map fun i => if i.id == item_id then item2 else i, some item2)

/-- A `retailer_prices` row. `last_updated` is an integer timestamp. -/
structure RetailerPrice where
  id : Nat
  material_name : String
  material_category : String
  retailer_name : String
  product_sku : Option String
  product_url : Option String
  unit_price : ℚ
  unit_of_measure : String
  availability_status : String
  last_updated : Int
deriving DecidableEq, Repr

/-- Ascending order on `unit_price`, the sort key of
`ORDER BY unit_price ASC`. -/
def priceLE (a b : RetailerPrice) : Prop :=
  a.unit_price ≤ b.unit_price

instance : DecidableRel priceLE := fun a b =>
  inferInstanceAs (Decidable (a.unit_price ≤ b.unit_price))

instance : IsTotal RetailerPrice priceLE :=
  ⟨fun a b => le_total a.unit_price b.unit_price⟩

instance : IsTrans RetailerPrice priceLE :=
  ⟨fun _ _ _ hab hbc => le_trans hab hbc⟩

/-- The WHERE clauses shared by the price queries: rows whose
`material_name` equals the argument, restricted to
`availability_status == "in_stock"` when `availability_only` is set. -/
def materialRows (db : List RetailerPrice) (material_name : String)
    (availability_only : Bool) : List RetailerPrice :=
  if availability_only then
    (db.filter fun r => r.material_name == material_name).filter
      fun r => r.availability_status == "in_stock"
  else db.filter fun r => r.material_name == material_name

/-- `RetailerPriceRepository.get_cheapest_for_material`: the filtered rows
ordered by `unit_price` ascending, `LIMIT 1`. -/
def get_cheapest_for_material (db : List RetailerPrice)
    (material_name : String) (availability_only : Bool) :
    Option RetailerPrice :=
  ((materialRows db material_name availability_only).insertionSort priceLE).head?

/-- `RetailerPriceRepository.get_average_price_by_material`: `AVG(unit_price)`
over the filtered rows, which is NULL — returned as `None` — when no row
matches. The SQL numeric average is modelled exactly as a rational. -/
def get_average_price_by_material (db : List RetailerPrice)
    (material_name : String) (availability_only : Bool) : Option ℚ :=
  match materialRows db material_name availability_only with
  | [] => none
  | rows => some (((rows.map fun r => r.unit_price).sum) / rows.length)

/-- `RetailerPriceRepository.compare_retailers`: all filtered rows ordered by
`unit_price` ascending. -/
def compare_retailers (db : List RetailerPrice) (material_name : String)
    (availability_only : Bool) : List RetailerPrice :=
  (materialRows db material_name availability_only).insertionSort priceLE

/-- A `subscriptions` row. Nullable timestamps are `Option Int`. -/
structure Subscription where
  id : Nat
  user_id : Nat
  stripe_subscription_id : Option String
  stripe_customer_id : String
  tier : String
  status : String
  current_period_start : Option Int
  current_period_end : Option Int
  cancel_at_period_end : Bool
deriving DecidableEq, Repr

/-- SQL `current_period_end <= before` on a nullable column: a NULL value
satisfies no comparison. -/
def periodEndLe (period_end : Option Int) (before : Int) : Bool :=
  match period_end with
  | none => false
  | some t => decide (t ≤ before)

/-- `SubscriptionRepository.get_expiring_soon`: rows with
`status == "active"` and `current_period_end <= before`, then
`OFFSET skip LIMIT limit`. The Python defaults are `skip=0, limit=100`. -/
def get_expiring_soon (db : List Subscription) (before : Int)
    (skip limit : Nat) : List Subscription :=
  (((db.filter fun s =>
      s.status == "active" && periodEndLe s.current_period_end before).drop
    skip).take limit)

/-- The subscriptions matching the expiring-soon condition, with no
pagination: the spec-side reading of the query. -/
def expiringMatching (db : List Subscription) (before : Int) :
    List Subscription :=
  db.filter fun s =>
    s.status == "active" && periodEndLe s.current_period_end before

/-- An out-of-stock price row for a given material, priced 5.00. -/
def oosRow (material_name : String) : RetailerPrice :=
  { id := 1
    material_name := material_name
    material_category := "paint"
    retailer_name := "lowes"
    product_sku := none
    product_url := none
    unit_price := 5
    unit_of_measure := "gallons"
    availability_status := "out_of_stock"
    last_updated := 0 }

/-- Example row object of a model with columns `status` and `budget`. -/
def exObj : Obj := [("status", Val.str "draft"), ("budget", Val.num 100)]

/-- Example one-row table holding `exObj` under id 1. -/
def exDb : BaseRepository.DB := [(1, exObj)]

/-- Example update payload with one recognized and one unknown key. -/
def exObjIn : List (String × Val) :=
  [("status", Val.str "completed"), ("bogus", Val.num 7)]

/-- Example shopping list with id 1. -/
def exList : ShoppingList :=
  { id := 1, project_id := 4, total_estimated_cost := 0 }

/-- Example item with a known estimated total cost. -/
def exItemA : ShoppingListItem :=
  { id := 10
    shopping_list_id := 1
    material_name := "interior paint"
    material_category := "paint"
    calculated_quantity := 2
    waste_factor_percent := 10
    actual_purchase_quantity := 3
    unit_of_measure := "gallons"
    estimated_unit_price := some 3
    estimated_total_cost := some 6
    actual_unit_price := none
    actual_total_cost := none
    purchase_status := "not_purchased"
    notes := none }

/-- Example item whose estimated total cost is NULL. -/
def exItemB : ShoppingListItem :=
  { exItemA with id := 11, estimated_unit_price := none, estimated_total_cost := none }

/-- Example shopping-list store: one list with one priced and one
NULL-priced item. -/
def exState : ShoppingListState :=
  { lists := [exList], items := [exItemA, exItemB] }

/-- Example in-stock price row, more expensive than `oosRow`. -/
def exInStock : RetailerPrice :=
  { oosRow "interior paint" with
      id := 2
      retailer_name := "home_depot"
      unit_price := 7
      availability_status := "in_stock" }

/-- Example price table: a cheap out-of-stock row and a costlier in-stock
row for the same material. -/
def exPrices : List RetailerPrice := [oosRow "interior paint", exInStock]

/-- Example active subscription whose period ends at time 0. -/
def exSub : Subscription :=
  { id := 1
    user_id := 1
    stripe_subscription_id := none
    stripe_customer_id := "cus_1"
    tier := "pro"
    status := "active"
    current_period_start := none
    current_period_end := some 0
    cancel_at_period_end := false }

/-- Example subscription table with a single active row. -/
def exSubs : List Subscription := [exSub]

/-- Example subscription table with 101 active rows all expiring at or
before time 0: one more than the default pagination limit. -/
def exSubsMany : List Subscription := List.replicate 101 exSub

/-! Helper lemmas shared by the claim theorems. -/

/-- `find?` commutes with a map that preserves the predicate. -/
theorem find?_map_congr {α : Type} (f : α → α) (p : α → Bool)
    (hp : ∀ a, p (f a) = p a) :
    ∀ l : List α, (l.map f).find? p = (l.find? p).map f := by
  intro l
  induction l with
  | nil => rfl
  | cons a t ih =>
    simp only [List.map_cons]
    cases h : p a with
    | true =>
      rw [List.find?_cons_of_pos _ (by rw [hp a]; exact h),
        List.find?_cons_of_pos _ h]
      rfl
    | false =>
      rw [List.find?_cons_of_neg _ (by rw [hp a, h]; exact Bool.false_ne_true),
        List.find?_cons_of_neg _ (by rw [h]; exact Bool.false_ne_true), ih]

/-- Filter entries with unrecognized keys do not change the row-matching
predicate. -/
theorem rowMatches_filter_keys (fields : List String)
    (filters : List (String × Val)) (row : Obj) :
    BaseRepository.rowMatches fields
        (filters.filter fun fv => fields.contains fv.1) row =
      BaseRepository.rowMatches fields filters row := by
  induction filters with
  | nil => rfl
  | cons fv rest ih =>
    simp only [BaseRepository.rowMatches, List.filter_cons] at ih ⊢
    by_cases h : fv.1 ∈ fields
    · simp at ih ⊢
      simp [h, ih]
    · simp at ih ⊢
      simp [h, ih]

/-- `setattr` does not change which attributes an object has. -/
theorem hasattr_setattr (f g : String) (v : Val) :
    ∀ o : Obj, hasattr (setattr o f v) g = hasattr o g := by
  intro o
  induction o with
  | nil => rfl
  | cons p t ih =>
    simp only [hasattr, setattr, List.map_cons, List.any_cons] at ih ⊢
    by_cases h : p.1 = f
    · subst h
      simp at ih ⊢
      simp [ih]
    · simp at ih ⊢
      simp [h, ih]

/-- Reading an attribute other than the one written is unchanged by
`setattr`. -/
theorem getattr_setattr_ne (f g : String) (v : Val) (hne : g ≠ f) :
    ∀ o : Obj, getattr (setattr o f v) g = getattr o g := by
  intro o
  induction o with
  | nil => rfl
  | cons p t ih =>
    simp only [setattr, List.map_cons] at ih ⊢
    by_cases h : p.1 = f
    · subst h
      simp only [getattr]
      simp at ih ⊢
      simp [Ne.symm hne, ih]
    · simp only [getattr]
      simp at ih ⊢
      simp [h, ih]

/-- The update field loop does not change which attributes an object has. -/
theorem hasattr_applyUpdate (obj_in : List (String × Val)) :
    ∀ (o : Obj) (g : String),
      hasattr (BaseRepository.applyUpdate o obj_in) g = hasattr o g := by
  induction obj_in with
  | nil => intro o g; rfl
  | cons fv rest ih =>
    intro o g
    simp only [BaseRepository.applyUpdate, List.foldl_cons] at ih ⊢
    by_cases h : hasattr o fv.1 = true
    · rw [if_pos h, ih, hasattr_setattr]
    · rw [if_neg h, ih]

/-- The update field loop ignores entries whose key is not an attribute of
the object. -/
theorem applyUpdate_filter_recognized (obj_in : List (String × Val)) :
    ∀ o : Obj,
      BaseRepository.applyUpdate o obj_in =
        BaseRepository.applyUpdate o (obj_in.filter fun fv => hasattr o fv.1) := by
  induction obj_in with
  | nil => intro o; rfl
  | cons fv rest ih =>
    intro o
    simp only [BaseRepository.applyUpdate, List.filter_cons] at ih ⊢
    by_cases h : hasattr o fv.1 = true
    · rw [if_pos h]
      simp only [List.foldl_cons, if_pos h]
      rw [ih (setattr o fv.1 fv.2)]
      congr 1
      apply List.filter_congr
      intro fv2 _
      rw [hasattr_setattr]
    · rw [if_neg h]
      simp only [List.foldl_cons, if_neg h]
      exact ih o

/-- Attributes named by no recognized key of the update payload keep their
prior value through the update field loop. -/
theorem getattr_applyUpdate_frame (obj_in : List (String × Val)) :
    ∀ (o : Obj) (f : String),
      (∀ fv ∈ obj_in, hasattr o fv.1 = true → fv.1 ≠ f) →
      getattr (BaseRepository.applyUpdate o obj_in) f = getattr o f := by
  induction obj_in with
  | nil => intro o f _; rfl
  | cons fv rest ih =>
    intro o f hf
    simp only [BaseRepository.applyUpdate, List.foldl_cons] at ih ⊢
    by_cases h : hasattr o fv.1 = true
    · have hne : fv.1 ≠ f := hf fv (List.mem_cons_self fv rest) h
      rw [if_pos h,
        ih (setattr o fv.1 fv.2) f
          (fun fv2 hm h2 =>
            hf fv2 (List.mem_cons_of_mem _ hm) (by rw [hasattr_setattr] at h2; exact h2)),
        getattr_setattr_ne _ _ _ (Ne.symm hne)]
    · rw [if_neg h]
      exact ih o f fun fv2 hm h2 => hf fv2 (List.mem_cons_of_mem _ hm) h2

/-! Claim theorems. -/

/-- C4: for an id that identifies no record, `get` returns an explicit
absence value, `update` returns absence leaving the store unchanged, and
`delete` returns `false` leaving the store unchanged; none of them fails. -/
theorem missing_id_absence (db : BaseRepository.DB) (id : Nat)
    (obj_in : List (String × Val)) (h : BaseRepository.get db id = none) :
    BaseRepository.get db id = none ∧
    BaseRepository.update db id obj_in = (db, none) ∧
    BaseRepository.delete db id = (db, false) :=
  ⟨h, by simp [BaseRepository.update, h], by simp [BaseRepository.delete, h]⟩

/-- Witness for C4 at a concrete one-row table and the missing id 99. -/
theorem missing_id_absence_witness :
    BaseRepository.update exDb 99 exObjIn = (exDb, none) ∧
    BaseRepository.delete exDb 99 = (exDb, false) :=
  ⟨(missing_id_absence exDb 99 exObjIn (by decide)).2.1,
   (missing_id_absence exDb 99 exObjIn (by decide)).2.2⟩

/-- C8: `get_multi` and `count` silently ignore filter entries whose key is
not a column of the model: the result is exactly the one for the filter map
with those entries removed, the recognized entries still applying. -/
theorem filters_ignore_unknown_keys (fields : List String) (db : List Obj)
    (skip limit : Nat) (filters : List (String × Val)) :
    BaseRepository.get_multi fields db skip limit filters =
      BaseRepository.get_multi fields db skip limit
        (filters.filter fun fv => fields.contains fv.1) ∧
    BaseRepository.count fields db filters =
      BaseRepository.count fields db
        (filters.filter fun fv => fields.contains fv.1) := by
  have hfilter : db.filter (BaseRepository.rowMatches fields filters) =
      db.filter (BaseRepository.rowMatches fields
        (filters.filter fun fv => fields.contains fv.1)) := by
    apply List.filter_congr
    intro row _
    exact (rowMatches_filter_keys fields filters row).symm
  exact ⟨by simp [BaseRepository.get_multi, hfilter],
    by simp [BaseRepository.count, hfilter]⟩

/-- C10: for an existing id, `update` succeeds while silently dropping the
payload entries whose key is not an attribute of the record, and every
attribute not named by a recognized key keeps its prior value. -/
theorem update_drops_unknown_keys (db : BaseRepository.DB) (id : Nat)
    (obj_in : List (String × Val)) (o : Obj)
    (h : BaseRepository.get db id = some o) :
    (BaseRepository.update db id obj_in).2 =
      some (BaseRepository.applyUpdate o obj_in) ∧
    BaseRepository.applyUpdate o obj_in =
      BaseRepository.applyUpdate o (obj_in.filter fun fv => hasattr o fv.1) ∧
    ∀ f, (∀ fv ∈ obj_in, hasattr o fv.1 = true → fv.1 ≠ f) →
      getattr (BaseRepository.applyUpdate o obj_in) f = getattr o f :=
  ⟨by simp [BaseRepository.update, h],
   applyUpdate_filter_recognized obj_in o,
   fun f hf => getattr_applyUpdate_frame obj_in o f hf⟩

/-- Witness for C10 at a concrete record, a payload with one recognized and
one unknown key, and the untouched attribute `budget`. -/
theorem update_drops_unknown_keys_witness :
    (BaseRepository.update exDb 1 exObjIn).2 =
      some (BaseRepository.applyUpdate exObj exObjIn) ∧
    BaseRepository.applyUpdate exObj exObjIn =
      BaseRepository.applyUpdate exObj
        (exObjIn.filter fun fv => hasattr exObj fv.1) ∧
    getattr (BaseRepository.applyUpdate exObj exObjIn) "budget" =
      getattr exObj "budget" :=
  ⟨(update_drops_unknown_keys exDb 1 exObjIn exObj (by decide)).1,
   (update_drops_unknown_keys exDb 1 exObjIn exObj (by decide)).2.1,
   (update_drops_unknown_keys exDb 1 exObjIn exObj (by decide)).2.2 "budget" (by decide)⟩

/-- A predicate holds at any element `find?` returns. -/
theorem find?_true {α : Type} (p : α → Bool) :
    ∀ (l : List α) (a : α), l.find? p = some a → p a = true := by
  intro l
  induction l with
  | nil => intro a h; cases h
  | cons x t ih =>
    intro a h
    cases hc : p x with
    | true =>
      rw [List.find?_cons_of_pos _ hc] at h
      cases h
      exact hc
    | false =>
      rw [List.find?_cons_of_neg _ (by rw [hc]; exact Bool.false_ne_true)] at h
      exact ih a h

/-- Python `x or Decimal("0.00")` agrees with "a null cost contributes
exactly 0.00": a held zero is falsy but is replaced by the same value. -/
theorem pyOrDecimal_zero (x : Option ℚ) : pyOrDecimal x 0 = x.getD 0 := by
  cases x with
  | none => rfl
  | some v =>
    by_cases h : v = 0
    · simp [pyOrDecimal, h]
    · simp [pyOrDecimal, h]

/-- The total-rewriting map step of `recalculate_total` preserves the id
predicate of `get_with_items`. -/
theorem setTotal_pred (slid : Nat) (q : ℚ) (a : ShoppingList) :
    ((if a.id == slid then { a with total_estimated_cost := q } else a).id == slid) =
      (a.id == slid) := by
  by_cases hc : (a.id == slid) = true
  · simp [hc]
  · simp [hc]

/-- Rewriting the totals of the lists matching an id twice is the same as
once. -/
theorem setTotal_map_idem (lists : List ShoppingList) (slid : Nat) (q : ℚ) :
    ((lists.map fun l2 => if l2.id == slid then { l2 with total_estimated_cost := q } else l2).map
        fun l2 => if l2.id == slid then { l2 with total_estimated_cost := q } else l2) =
      lists.map fun l2 => if l2.id == slid then { l2 with total_estimated_cost := q } else l2 := by
  rw [List.map_map]
  apply List.map_congr_left
  intro a _
  by_cases ha : a.id = slid
  · simp [ha]
  · simp [ha]

/-- C1: `recalculate_total` returns absence for a missing list id; for an
existing list it stores and returns the list whose `total_estimated_cost`
is the sum over all its items of `estimated_total_cost`, a null cost
contributing exactly 0.00. -/
theorem recalculate_total_spec (st : ShoppingListState) (shopping_list_id : Nat) :
    (get_with_items st shopping_list_id = none →
      recalculate_total st shopping_list_id = (st, none)) ∧
    ∀ l, get_with_items st shopping_list_id = some l →
      ((recalculate_total st shopping_list_id).2.map fun l2 => l2.total_estimated_cost) =
        some (((itemsOf st shopping_list_id).map fun i =>
          i.estimated_total_cost.getD 0).sum) ∧
      get_with_items (recalculate_total st shopping_list_id).1 shopping_list_id =
        (recalculate_total st shopping_list_id).2 := by
  constructor
  · intro h
    simp [recalculate_total, h]
  · intro l h
    have h2 : st.lists.find? (fun l2 => l2.id == shopping_list_id) = some l := h
    have hp : (l.id == shopping_list_id) = true :=
      find?_true (fun l2 => l2.id == shopping_list_id) st.lists l h2
    have hcall : recalculate_total st shopping_list_id =
        ({ st with lists := st.lists.map fun l2 =>
            if l2.id == shopping_list_id then
              { l2 with total_estimated_cost :=
                  ((itemsOf st shopping_list_id).map fun i =>
                    pyOrDecimal i.estimated_total_cost 0).sum }
            else l2 },
         some { l with total_estimated_cost :=
            ((itemsOf st shopping_list_id).map fun i =>
              pyOrDecimal i.estimated_total_cost 0).sum }) := by
      simp only [recalculate_total, h]
    have hfun : (fun i : ShoppingListItem => pyOrDecimal i.estimated_total_cost 0) =
        fun i : ShoppingListItem => i.estimated_total_cost.getD 0 :=
      funext fun i => pyOrDecimal_zero _
    constructor
    · rw [hcall]
      simp [hfun]
    · rw [hcall]
      simp only [get_with_items]
      rw [find?_map_congr _ _ (setTotal_pred shopping_list_id _), h2]
      have hpe : l.id = shopping_list_id := by simpa using hp
      simp [hpe]

/-- C7: with no intervening writes, running `recalculate_total` a second
time returns the same store and the same list, so the same
`total_estimated_cost`, as the first run. -/
theorem recalculate_total_idempotent (st : ShoppingListState) (shopping_list_id : Nat) :
    recalculate_total (recalculate_total st shopping_list_id).1 shopping_list_id =
      recalculate_total st shopping_list_id := by
  cases h : get_with_items st shopping_list_id with
  | none =>
    have hcall : recalculate_total st shopping_list_id = (st, none) := by
      simp [recalculate_total, h]
    rw [hcall]
    exact hcall
  | some l =>
    have h2 : st.lists.find? (fun l2 => l2.id == shopping_list_id) = some l := h
    have hp : (l.id == shopping_list_id) = true :=
      find?_true (fun l2 => l2.id == shopping_list_id) st.lists l h2
    have hcall : recalculate_total st shopping_list_id =
        ({ st with lists := st.lists.map fun l2 =>
            if l2.id == shopping_list_id then
              { l2 with total_estimated_cost :=
                  ((itemsOf st shopping_list_id).map fun i =>
                    pyOrDecimal i.estimated_total_cost 0).sum }
            else l2 },
         some { l with total_estimated_cost :=
            ((itemsOf st shopping_list_id).map fun i =>
              pyOrDecimal i.estimated_total_cost 0).sum }) := by
      simp only [recalculate_total, h]
    have hfind1 : get_with_items
        ({ st with lists := st.lists.map fun l2 =>
            if l2.id == shopping_list_id then
              { l2 with total_estimated_cost :=
                  ((itemsOf st shopping_list_id).map fun i =>
                    pyOrDecimal i.estimated_total_cost 0).sum }
            else l2 }) shopping_list_id =
        some { l with total_estimated_cost :=
          ((itemsOf st shopping_list_id).map fun i =>
            pyOrDecimal i.estimated_total_cost 0).sum } := by
      simp only [get_with_items]
      rw [find?_map_congr _ _ (setTotal_pred shopping_list_id _), h2]
      have hpe : l.id = shopping_list_id := by simpa using hp
      simp [hpe]
    rw [hcall]
    simp only [recalculate_total, hfind1]
    dsimp only [itemsOf]
    simp only [Prod.mk.injEq, ShoppingListState.mk.injEq]
    refine ⟨⟨?_, trivial⟩, trivial⟩
    exact setTotal_map_idem st.lists shopping_list_id _

/-- Witness for C1 at the concrete store: total of list 1 is 6 + 0, and a
missing id 99 yields absence. -/
theorem recalculate_total_spec_witness :
    ((recalculate_total exState 1).2.map fun l2 => l2.total_estimated_cost) =
      some (((itemsOf exState 1).map fun i => i.estimated_total_cost.getD 0).sum) ∧
    recalculate_total exState 99 = (exState, none) :=
  ⟨((recalculate_total_spec exState 1).2 exList (by decide)).1,
   (recalculate_total_spec exState 99).1 (by decide)⟩

/-- C3: `mark_purchased` returns absence for a missing item id; for an
existing item it marks it purchased, records the actual unit price, and sets
`actual_total_cost` to price times the supplied quantity, defaulting to the
item's stored `actual_purchase_quantity` when no quantity is supplied. -/
theorem mark_purchased_spec (items : List ShoppingListItem) (item_id : Nat)
    (actual_unit_price : ℚ) (actual_quantity : Option ℚ) :
    (itemGet items item_id = none →
      mark_purchased items item_id actual_unit_price actual_quantity = (items, none)) ∧
    ∀ item, itemGet items item_id = some item →
      ((mark_purchased items item_id actual_unit_price actual_quantity).2.map
          fun i => i.purchase_status) = some "purchased" ∧
      ((mark_purchased items item_id actual_unit_price actual_quantity).2.map
          fun i => i.actual_unit_price) = some (some actual_unit_price) ∧
      (∀ q, actual_quantity = some q →
        ((mark_purchased items item_id actual_unit_price actual_quantity).2.map
            fun i => i.actual_total_cost) = some (some (actual_unit_price * q))) ∧
      (actual_quantity = none →
        ((mark_purchased items item_id actual_unit_price actual_quantity).2.map
            fun i => i.actual_total_cost) =
          some (some (actual_unit_price * item.actual_purchase_quantity))) := by
  constructor
  · intro h
    simp [mark_purchased, h]
  · intro item h
    have hcall : (mark_purchased items item_id actual_unit_price actual_quantity).2 =
        some { item with
          purchase_status := "purchased"
          actual_unit_price := some actual_unit_price
          actual_total_cost := some (match actual_quantity with
            | some q => actual_unit_price * q
            | none => actual_unit_price * item.actual_purchase_quantity) } := by
      simp [mark_purchased, h]
    refine ⟨?_, ?_, ?_, ?_⟩
    · rw [hcall]
      rfl
    · rw [hcall]
      rfl
    · intro q hq
      subst hq
      rw [hcall]
      rfl
    · intro hq
      subst hq
      rw [hcall]
      rfl

/-- Witness for C3 at a concrete item: explicit quantity 2, the default
quantity path, and a missing id 99. -/
theorem mark_purchased_spec_witness :
    ((mark_purchased [exItemA] 10 5 (some 2)).2.map fun i => i.purchase_status) =
      some "purchased" ∧
    ((mark_purchased [exItemA] 10 5 (some 2)).2.map fun i => i.actual_total_cost) =
      some (some ((5 : ℚ) * 2)) ∧
    ((mark_purchased [exItemA] 10 5 none).2.map fun i => i.actual_total_cost) =
      some (some ((5 : ℚ) * exItemA.actual_purchase_quantity)) ∧
    mark_purchased [exItemA] 99 5 none = ([exItemA], none) :=
  ⟨((mark_purchased_spec [exItemA] 10 5 (some 2)).2 exItemA (by decide)).1,
   ((mark_purchased_spec [exItemA] 10 5 (some 2)).2 exItemA (by decide)).2.2.1 2 rfl,
   ((mark_purchased_spec [exItemA] 10 5 none).2 exItemA (by decide)).2.2.2 rfl,
   (mark_purchased_spec [exItemA] 99 5 none).1 (by decide)⟩

/-- The price queries' WHERE clauses equal one combined filter: material
match, and in-stock only when the availability filter is on. -/
theorem materialRows_eq_filter (db : List RetailerPrice) (m : String)
    (avail : Bool) :
    materialRows db m avail =
      db.filter fun r => r.material_name == m &&
        (!avail || r.availability_status == "in_stock") := by
  cases avail with
  | false => simp [materialRows]
  | true =>
    simp only [materialRows, Bool.not_true, Bool.false_or, if_true]
    rw [List.filter_filter]
    apply List.filter_congr
    intro a _
    exact Bool.and_comm _ _

/-- The head of the price-sorted list is a member of minimum
`unit_price`. -/
theorem insertionSort_head_min (q : List RetailerPrice) (r : RetailerPrice)
    (h : (q.insertionSort priceLE).head? = some r) :
    r ∈ q ∧ ∀ x ∈ q, r.unit_price ≤ x.unit_price := by
  cases hs : q.insertionSort priceLE with
  | nil => rw [hs] at h; cases h
  | cons a t =>
    rw [hs] at h
    have har : a = r := Option.some.inj h
    subst har
    have hsorted := List.sorted_insertionSort priceLE q
    rw [hs] at hsorted
    constructor
    · exact (List.mem_insertionSort priceLE).mp (hs ▸ List.mem_cons_self a t)
    · intro x hx
      have hx2 : x ∈ a :: t := hs ▸ (List.mem_insertionSort priceLE).mpr hx
      rcases List.mem_cons.mp hx2 with h1 | h2
      · rw [h1]
      · exact List.rel_of_sorted_cons hsorted x h2

/-- C2: with the availability filter on, `get_cheapest_for_material` only
ever returns an in-stock row of the requested material, of minimum
`unit_price` among the in-stock matching rows; with the filter off an
out-of-stock row can be returned. -/
theorem cheapest_spec (db : List RetailerPrice) (m : String) :
    (∀ r, get_cheapest_for_material db m true = some r →
      r.availability_status = "in_stock" ∧ r.material_name = m ∧ r ∈ db ∧
      ∀ r2 ∈ db, r2.material_name = m → r2.availability_status = "in_stock" →
        r.unit_price ≤ r2.unit_price) ∧
    get_cheapest_for_material [oosRow m] m false = some (oosRow m) ∧
    (oosRow m).availability_status = "out_of_stock" := by
  refine ⟨?_, ?_, rfl⟩
  · intro r h
    have hmin := insertionSort_head_min (materialRows db m true) r h
    rw [materialRows_eq_filter] at hmin
    have hr := List.mem_filter.mp hmin.1
    have hr2 := hr.2
    simp at hr2
    refine ⟨hr2.2, hr2.1, hr.1, ?_⟩
    intro r2 hr2db hr2m hr2s
    apply hmin.2
    apply List.mem_filter.mpr
    constructor
    · exact hr2db
    · simp [hr2m, hr2s]
  · simp [get_cheapest_for_material, materialRows, oosRow]

/-- C6: `compare_retailers` returns exactly the matching rows (in-stock
only when the availability filter is on), sorted ascending by
`unit_price`. -/
theorem compare_retailers_spec (db : List RetailerPrice) (m : String)
    (avail : Bool) :
    (compare_retailers db m avail).Perm
      (db.filter fun r => r.material_name == m &&
        (!avail || r.availability_status == "in_stock")) ∧
    List.Sorted priceLE (compare_retailers db m avail) := by
  constructor
  · have hperm := List.perm_insertionSort priceLE (materialRows db m avail)
    unfold compare_retailers
    rw [← materialRows_eq_filter]
    exact hperm
  · exact List.sorted_insertionSort priceLE _

/-- C5: `get_average_price_by_material` returns absence — not zero — when
no row matches, and the arithmetic mean of `unit_price` over the matching
rows otherwise. -/
theorem average_price_spec (db : List RetailerPrice) (m : String)
    (avail : Bool) :
    ((db.filter fun r => r.material_name == m &&
        (!avail || r.availability_status == "in_stock")) = [] →
      get_average_price_by_material db m avail = none) ∧
    ((db.filter fun r => r.material_name == m &&
        (!avail || r.availability_status == "in_stock")) ≠ [] →
      get_average_price_by_material db m avail =
        some (((db.filter fun r => r.material_name == m &&
            (!avail || r.availability_status == "in_stock")).map
              fun r => r.unit_price).sum /
          (db.filter fun r => r.material_name == m &&
            (!avail || r.availability_status == "in_stock")).length)) := by
  have he := materialRows_eq_filter db m avail
  constructor
  · intro h
    unfold get_average_price_by_material
    rw [he, h]
  · intro h
    unfold get_average_price_by_material
    rw [he]
    cases hrows : db.filter fun r => r.material_name == m &&
        (!avail || r.availability_status == "in_stock") with
    | nil => exact absurd hrows h
    | cons a t => rfl

/-- Witness for C2 at a concrete table where the cheaper row is out of
stock: the costlier in-stock row wins. -/
theorem cheapest_spec_witness :
    get_cheapest_for_material exPrices "interior paint" true = some exInStock ∧
    exInStock.availability_status = "in_stock" :=
  ⟨by decide, ((cheapest_spec exPrices "interior paint").1 exInStock (by decide)).1⟩

/-- Witness for C5: absence on an empty table, and the mean over the
two-row concrete table with the availability filter off. -/
theorem average_price_spec_witness :
    get_average_price_by_material [] "interior paint" true = none ∧
    get_average_price_by_material exPrices "interior paint" false =
      some (((exPrices.filter fun r => r.material_name == "interior paint" &&
          (!false || r.availability_status == "in_stock")).map
            fun r => r.unit_price).sum /
        (exPrices.filter fun r => r.material_name == "interior paint" &&
          (!false || r.availability_status == "in_stock")).length) :=
  ⟨(average_price_spec [] "interior paint" true).1 rfl,
   (average_price_spec exPrices "interior paint" false).2 (by decide)⟩

/-- Counterexample to C9 as stated: with 101 matching subscriptions, the
call with its default pagination (`skip=0, limit=100`) does not return
exactly the matching subscriptions — the 101st is cut off. -/
theorem expiring_soon_truncates :
    ¬ (get_expiring_soon exSubsMany 0 0 100 = expiringMatching exSubsMany 0) := by
  decide

/-- C9 (amended): every subscription returned by `get_expiring_soon` under
the default pagination is an active row of the table with
`current_period_end` at or before the threshold — a subscription with any
other status, or with an absent or later period end, is never included —
and whenever at most 100 subscriptions match (the default limit), exactly
the matching subscriptions are returned. -/
theorem expiring_soon_spec (db : List Subscription) (before : Int) :
    (∀ s ∈ get_expiring_soon db before 0 100,
      s ∈ db ∧ s.status = "active" ∧
      ∃ t, s.current_period_end = some t ∧ t ≤ before) ∧
    ((expiringMatching db before).length ≤ 100 →
      get_expiring_soon db before 0 100 = expiringMatching db before) := by
  constructor
  · intro s hs
    unfold get_expiring_soon at hs
    rw [List.drop_zero] at hs
    have hs2 := List.mem_of_mem_take hs
    have hs3 := List.mem_filter.mp hs2
    have hcond := hs3.2
    rw [Bool.and_eq_true] at hcond
    have hst : s.status = "active" := by simpa using hcond.1
    have hpe := hcond.2
    refine ⟨hs3.1, hst, ?_⟩
    cases hend : s.current_period_end with
    | none =>
      rw [hend] at hpe
      simp [periodEndLe] at hpe
    | some t =>
      rw [hend] at hpe
      simp [periodEndLe] at hpe
      exact ⟨t, rfl, hpe⟩
  · intro hlen
    unfold get_expiring_soon expiringMatching
    rw [List.drop_zero]
    exact List.take_of_length_le hlen

/-- Witness for C9 at a one-row table: the single matching subscription is
returned exactly, and it is active. -/
theorem expiring_soon_spec_witness :
    get_expiring_soon exSubs 0 0 100 = expiringMatching exSubs 0 ∧
    exSub.status = "active" :=
  ⟨(expiring_soon_spec exSubs 0).2 (by decide),
   ((expiring_soon_spec exSubs 0).1 exSub (by decide)).2.1⟩

end Estimate
